import Mathlib

/-!
Verification of the hnc-contacts-fe contact-list view-model pipeline.

Shallow embedding of the client-side pipeline of `ContactsPage.tsx`
(`src/features/contacts/components/ContactsPage.tsx`, mirrored in
`src/routes/contacts.tsx`): status re-filter → stable sort → pagination,
plus the join-date range derivation (`src/lib/utils.ts`), the roles
aggregate fetch (`src/services/contacts-api.ts`), the contact-form submit
validation (`src/components/ContactForm.tsx`) and the contacts-list
request parameters.

JavaScript semantics are modelled as follows: machine `number` values in
this code are small non-negative integers (list lengths, page numbers),
modelled as `Nat`; `string | null | undefined` fields are `Option String`;
`Array.prototype.sort` is stable (ES2019) and, for a consistent
comparator, produces the unique stably-sorted list, modelled by
`List.mergeSort` with `le a b := comparator a b ≤ 0`; `Array.slice` on
in-range indices is `take`/`drop`.
-/

namespace HncContacts

/-! ## Data model (`src/types/contacts.ts` and the contacts feature types) -/

/-- Source: `ContactType = 'person' | 'organization'`. -/
inductive ContactType where
  | person
  | organization
deriving DecidableEq, Repr

/-- The string value of a `ContactType` (the TS value is the string itself). -/
def ctString : ContactType → String
  | .person => "person"
  | .organization => "organization"

/-- A row of the contacts list. Fields not read by the list pipeline
(`createdAt`, `updatedAt`, `createdBy`, `updatedBy`, `v2ParticipantId`,
detail sub-records) are omitted. `joinDate` is the optional calendar-date
field of the contacts feature's `Contact` type (the page renders
`contact.joinDate`; the spec data model lists it as optional). -/
structure Contact where
  id : String
  contactType : ContactType
  displayName : String
  isActive : Bool
  joinDate : Option String
deriving DecidableEq, Repr

/-- The status filter `ContactStatus | ''`: `''` (no filter), `'active'`,
`'inactive'`. -/
inductive StatusFilter where
  | blank
  | active
  | inactive
deriving DecidableEq, Repr

/-! ## Step 1 — client-side status re-filter (`ContactsPage.tsx` 206–212)

```
const filteredContacts = filterStatus
  ? rawContacts.filter((c) =>
      filterStatus === 'active' ? c.isActive : !c.isActive
    )
  : rawContacts;
```
-/

/-- The filter callback `c => filterStatus === 'active' ? c.isActive : !c.isActive`. -/
def statusMatches (filterStatus : StatusFilter) (c : Contact) : Bool :=
  if filterStatus = .active then c.isActive else !c.isActive

/-- Source: `filteredContacts`: the client-side `isActive` re-filter (workaround for
the API boolean coercion bug). `filterStatus` truthy means not `''`. -/
def filteredContacts (filterStatus : StatusFilter) (rawContacts : List Contact) :
    List Contact :=
  match filterStatus with
  | .blank => rawContacts
  | _ => rawContacts.filter (statusMatches filterStatus)

/-! ## Step 2 — stable sort (`ContactsPage.tsx` 214–224)

```
const allContacts = [...filteredContacts].sort((a, b) => {
  if (!sortField) return 0;
  let aValue: string | boolean = a[sortField] ?? '';
  let bValue: string | boolean = b[sortField] ?? '';
  if (typeof aValue === 'string') aValue = aValue.toLowerCase();
  if (typeof bValue === 'string') bValue = bValue.toLowerCase();
  if (aValue < bValue) return sortDirection === 'asc' ? -1 : 1;
  if (aValue > bValue) return sortDirection === 'asc' ? 1 : -1;
  return 0;
});
```
-/

/-- Source: `SortDirection = 'asc' | 'desc'`. -/
inductive SortDirection where
  | asc
  | desc
deriving DecidableEq, Repr

/-- The sortable columns (`SortField` minus its `null` case, which is modelled
as `Option SortField`). The contacts feature's types module declares the
sortable-column union; the variants here are the columns the page reads off a
`Contact` row: `displayName`, `contactType`, `isActive` and the optional
`joinDate` (the spec: a nullable enum over sortable columns, where optional
fields may be absent on some rows). -/
inductive SortField where
  | displayName
  | contactType
  | isActive
  | joinDate
deriving DecidableEq, Repr

/-- The runtime value `a[sortField] ?? ''` has TS type `string | boolean`. -/
inductive SortVal where
  | str (s : String)
  | bool (b : Bool)
deriving DecidableEq, Repr

/-- JS `toLowerCase`, modelled as character-wise lowering. -/
def jsToLower (s : String) : String :=
  ⟨s.data.map Char.toLower⟩

/-- Source: `a[sortField]` before the `?? ''` coercion: `none` when the field value is
`null`/missing (only `joinDate` is nullable among the sortable columns). -/
def rawFieldVal (f : SortField) (c : Contact) : Option SortVal :=
  match f with
  | .displayName => some (.str c.displayName)
  | .contactType => some (.str (ctString c.contactType))
  | .isActive => some (.bool c.isActive)
  | .joinDate => c.joinDate.map .str

/-- Source: `a[sortField] ?? ''`. -/
def sortFieldVal (f : SortField) (c : Contact) : SortVal :=
  (rawFieldVal f c).getD (.str "")

/-- Source: `if (typeof v === 'string') v = v.toLowerCase()`. -/
def svToLower : SortVal → SortVal
  | .str s => .str (jsToLower s)
  | .bool b => .bool b

/-- JS `<` on the comparator operands. Both keys of a comparison come from the
same field, so they are always both strings or both booleans; strings compare
lexicographically by code unit and booleans as `false < true`. The
heterogeneous cases cannot arise and are given the value `false`. -/
def svLt : SortVal → SortVal → Bool
  | .str a, .str b => a < b
  | .bool a, .bool b => !a && b
  | .str _, .bool _ => false
  | .bool _, .str _ => false

/-- The sort key actually compared: null-coercion then case-folding. -/
def sortKey (f : SortField) (c : Contact) : SortVal :=
  svToLower (sortFieldVal f c)

/-- The row has a present, non-empty value for the field: a string value
other than `''` (a boolean value is always present, and `isActive` can never
be null). -/
def nonEmptyFieldVal (f : SortField) (c : Contact) : Prop :=
  match rawFieldVal f c with
  | some (.str s) => s ≠ ""
  | some (.bool _) => True
  | none => False

/-- The comparator passed to `sort`, returning `-1`/`0`/`1` with the sign
flipped by `sortDirection`. -/
def contactCompare (sortField : Option SortField) (sortDirection : SortDirection)
    (a b : Contact) : Int :=
  match sortField with
  | none => 0
  | some f =>
    let aValue := svToLower (sortFieldVal f a)
    let bValue := svToLower (sortFieldVal f b)
    if svLt aValue bValue then (match sortDirection with | .asc => -1 | .desc => 1)
    else if svLt bValue aValue then (match sortDirection with | .asc => 1 | .desc => -1)
    else 0

/-- The "does not need to swap" relation of the comparator: `cmp a b ≤ 0`.
`Array.prototype.sort` is stable and, for a consistent comparator, yields the
unique stable order, which `List.mergeSort` with this relation computes. -/
def sortLe (sortField : Option SortField) (sortDirection : SortDirection)
    (a b : Contact) : Bool :=
  contactCompare sortField sortDirection a b ≤ 0

/-- Source: `allContacts = [...filteredContacts].sort(comparator)`. -/
def allContacts (sortField : Option SortField) (sortDirection : SortDirection)
    (filteredContacts : List Contact) : List Contact :=
  filteredContacts.mergeSort (sortLe sortField sortDirection)

/-! ## Step 3 — pagination (`ContactsPage.tsx` 227–231)

```
const totalItems = allContacts.length;
const totalPages = Math.ceil(totalItems / rowsPerPage);
const startIndex = (currentPage - 1) * rowsPerPage;
const endIndex = Math.min(startIndex + rowsPerPage, totalItems);
const paginatedContacts = allContacts.slice(startIndex, endIndex);
```
-/

/-- Source: `totalItems = allContacts.length`. -/
def totalItems (allContacts : List Contact) : Nat :=
  allContacts.length

/-- Source: `totalPages = Math.ceil(totalItems / rowsPerPage)`. For `rowsPerPage > 0`
the exact ceiling of the rational quotient is `(totalItems + rowsPerPage - 1)
/ rowsPerPage` in integer arithmetic (this is also Mathlib's `Nat` ceiling
division). -/
def totalPages (totalItems rowsPerPage : Nat) : Nat :=
  (totalItems + rowsPerPage - 1) / rowsPerPage

/-- Source: `startIndex = (currentPage - 1) * rowsPerPage` (`currentPage` is 1-based;
truncated subtraction never triggers since `currentPage ≥ 1`). -/
def startIndex (currentPage rowsPerPage : Nat) : Nat :=
  (currentPage - 1) * rowsPerPage

/-- Source: `endIndex = Math.min(startIndex + rowsPerPage, totalItems)`. -/
def endIndex (currentPage rowsPerPage totalItems : Nat) : Nat :=
  min (startIndex currentPage rowsPerPage + rowsPerPage) totalItems

/-- Source: `Array.prototype.slice(s, e)` for `0 ≤ s` and `0 ≤ e`: the elements at
indices `[s, e)`. -/
def jsSlice (l : List α) (s e : Nat) : List α :=
  (l.take e).drop s

/-- Source: `paginatedContacts = allContacts.slice(startIndex, endIndex)`. -/
def paginatedContacts (allContacts : List Contact) (currentPage rowsPerPage : Nat) :
    List Contact :=
  jsSlice allContacts (startIndex currentPage rowsPerPage)
    (endIndex currentPage rowsPerPage (totalItems allContacts))

/-! ## Join-date range derivation (`src/lib/utils.ts`, `getJoinDateRange`)

JS `Date` is modelled as a calendar date, taking the runtime's local time
zone to be UTC, so that `new Date(y, m, d)` and `toISOString().split('T')[0]`
agree on the calendar day. `setDate(getDate() - n)` normalizes through day
counts, modelled by converting to days-since-epoch and back (Gregorian civil
calendar conversion). -/

/-- A calendar date: `year` (astronomical, may be ≤ 0), `month` 1–12,
`day` 1–31. -/
structure JsDate where
  year : Int
  month : Nat
  day : Nat
deriving DecidableEq, Repr

/-- Days from civil date to days since 1970-01-01 (Gregorian). -/
def civilToDays (dt : JsDate) : Int :=
  let y : Int := if dt.month ≤ 2 then dt.year - 1 else dt.year
  let era : Int := Int.fdiv y 400
  let yoe : Int := y - era * 400
  let mp : Nat := if dt.month ≤ 2 then dt.month + 9 else dt.month - 3
  let doy : Int := ((153 * mp + 2) / 5 : Nat) + (dt.day : Int) - 1
  let doe : Int := yoe * 365 + yoe / 4 - yoe / 100 + doy
  era * 146097 + doe - 719468

/-- Days since 1970-01-01 back to a civil date (Gregorian). -/
def daysToCivil (days : Int) : JsDate :=
  let z : Int := days + 719468
  let era : Int := Int.fdiv z 146097
  let doe : Int := z - era * 146097
  let yoe : Int := (doe - doe / 1460 + doe / 36524 - doe / 146096) / 365
  let y : Int := yoe + era * 400
  let doy : Int := doe - (365 * yoe + yoe / 4 - yoe / 100)
  let mp : Int := (5 * doy + 2) / 153
  let d : Int := doy - (153 * mp + 2) / 5 + 1
  let m : Int := if mp < 10 then mp + 3 else mp - 9
  ⟨if m ≤ 2 then y + 1 else y, m.toNat, d.toNat⟩

/-- Source: `const from = new Date(today); from.setDate(from.getDate() - n)`. -/
def subDays (dt : JsDate) (n : Nat) : JsDate :=
  daysToCivil (civilToDays dt - n)

/-- A natural number zero-padded on the left to `w` digits. -/
def padNat (w n : Nat) : String :=
  let s := toString n
  ⟨List.replicate (w - s.length) '0'⟩ ++ s

/-- The year component of `toISOString`: 4 digits for 0–9999, otherwise the
expanded `±YYYYYY` form. -/
def isoYearStr (y : Int) : String :=
  if y < 0 then "-" ++ padNat 6 y.natAbs
  else if y ≤ 9999 then padNat 4 y.toNat
  else "+" ++ padNat 6 y.toNat

/-- Source: `date.toISOString().split('T')[0]`: the `YYYY-MM-DD` string. -/
def isoDateString (dt : JsDate) : String :=
  isoYearStr dt.year ++ "-" ++ padNat 2 dt.month ++ "-" ++ padNat 2 dt.day

/-- The result `{ joinDateFrom?, joinDateTo? }` of `getJoinDateRange`. -/
structure JoinDateRange where
  joinDateFrom : Option String
  joinDateTo : Option String
deriving DecidableEq, Repr

/-- Source: `getJoinDateRange(filterValue)` evaluated with `today` as the current
date. Mirrors the `switch` of `src/lib/utils.ts` 26–56. -/
def getJoinDateRange (filterValue : String) (today : JsDate) : JoinDateRange :=
  if filterValue = "" then ⟨none, none⟩
  else
    let toDate := isoDateString today
    if filterValue = "last_30_days" then
      ⟨some (isoDateString (subDays today 30)), some toDate⟩
    else if filterValue = "last_90_days" then
      ⟨some (isoDateString (subDays today 90)), some toDate⟩
    else if filterValue = "this_year" then
      ⟨some (isoDateString ⟨today.year, 1, 1⟩), some toDate⟩
    else if filterValue = "last_year" then
      let lastYear := today.year - 1
      ⟨some (isoDateString ⟨lastYear, 1, 1⟩), some (isoDateString ⟨lastYear, 12, 31⟩)⟩
    else ⟨none, none⟩

/-! ## Roles aggregate fetch (`src/services/contacts-api.ts` 160–190)

Each role-type sub-fetch either fulfills with a list or rejects with an
`ApiError`; `Promise.allSettled` never rejects, so the aggregate is a total
function of the three settled outcomes. -/

/-- The `ApiError` thrown by `apiFetch` on a non-2xx response. -/
structure ApiError where
  message : String
  status : Nat
deriving DecidableEq, Repr

/-- A row of `/players`. Fields other than `contactId` are not read by the
roles logic and are collapsed into `id`. -/
structure Player where
  id : String
  contactId : String
deriving DecidableEq, Repr

/-- A row of `/partners`. -/
structure Partner where
  id : String
  contactId : String
deriving DecidableEq, Repr

/-- A row of `/hnc-members`. -/
structure HncMember where
  id : String
  contactId : String
deriving DecidableEq, Repr

/-- Source: `ContactRoles`: the aggregate of the three role lists. -/
structure ContactRoles where
  players : List Player
  partners : List Partner
  hncMembers : List HncMember
deriving DecidableEq, Repr

/-- Source: `getPlayersByContact`: on a fulfilled response, `(response.data || [])
.filter(r => r.contactId === contactId)`; a rejected fetch propagates. -/
def getPlayersByContact (contactId : String)
    (resp : Except ApiError (Option (List Player))) : Except ApiError (List Player) :=
  resp.map fun d => (d.getD []).filter fun r => r.contactId == contactId

/-- Source: `getPartnersByContact`, same shape. -/
def getPartnersByContact (contactId : String)
    (resp : Except ApiError (Option (List Partner))) : Except ApiError (List Partner) :=
  resp.map fun d => (d.getD []).filter fun r => r.contactId == contactId

/-- Source: `getHncMembersByContact`, same shape. -/
def getHncMembersByContact (contactId : String)
    (resp : Except ApiError (Option (List HncMember))) : Except ApiError (List HncMember) :=
  resp.map fun d => (d.getD []).filter fun r => r.contactId == contactId

/-- Source: `results[i].status === 'fulfilled' ? results[i].value : []`. -/
def settledList (r : Except ApiError (List α)) : List α :=
  match r with
  | .ok v => v
  | .error _ => []

/-- Source: `getAllRolesForContact` as a function of the three settled sub-fetch
outcomes (`Promise.allSettled` of the three promises). It always resolves:
the result type is `ContactRoles`, not `Except`. -/
def getAllRolesForContact (players : Except ApiError (List Player))
    (partners : Except ApiError (List Partner))
    (hncMembers : Except ApiError (List HncMember)) : ContactRoles :=
  ⟨settledList players, settledList partners, settledList hncMembers⟩

/-! ## Contact form submit (`src/components/ContactForm.tsx`)

The zod schemas (lines 8–23) and `handleSubmit` (lines 127–209). The zod
email format check is library code external to this repository, so it is a
parameter `emailValid` of the model; the claims hold for every format
predicate. Form-state fields typed `string | null | undefined` are
`Option String`. -/

/-- Source: `PersonFormData` (the person form state). -/
structure PersonFormData where
  firstName : String
  lastName : Option String
  email : Option String
  mobileNumber : Option String
  country : Option String
  joinDate : Option String
deriving DecidableEq, Repr

/-- Source: `OrganizationFormData` (the organization form state). -/
structure OrganizationFormData where
  legalName : String
  taxId : Option String
  registrationNumber : Option String
  country : Option String
  joinDate : Option String
deriving DecidableEq, Repr

/-- Field errors of `personSchema.safeParse`, keyed as `err.path[0]` with the
first failing rule's message: `firstName: z.string().min(1, 'First name is
required')`; `email: z.string().email('Invalid email address').optional()
.or(z.literal('')).nullable()` accepts `undefined`/`null`/`''`/a valid
address. Every other field is an unconstrained optional nullable string. -/
def personSchemaErrors (emailValid : String → Bool) (d : PersonFormData) :
    List (String × String) :=
  (if d.firstName.length < 1 then [("firstName", "First name is required")] else []) ++
  (match d.email with
   | none => []
   | some e => if e = "" || emailValid e then [] else [("email", "Invalid email address")])

/-- Field errors of `organizationSchema.safeParse`: `legalName:
z.string().min(1, 'Legal name is required')`; the rest unconstrained. -/
def organizationSchemaErrors (d : OrganizationFormData) : List (String × String) :=
  if d.legalName.length < 1 then [("legalName", "Legal name is required")] else []

/-- The argument passed to `onSubmit`: `CreateContactDto` in create mode
(`contactType` present) or `UpdateContactDto` in edit mode (`contactType`
absent). -/
structure SubmittedDto where
  contactType : Option ContactType
  displayName : String
  firstName : Option String
  lastName : Option String
  email : Option String
  mobileNumber : Option String
  country : Option String
  joinDate : Option String
  legalName : Option String
  taxId : Option String
  registrationNumber : Option String
deriving DecidableEq, Repr

/-- JS `v || null` on a `string | null | undefined` value: empty string,
`null` and `undefined` all become `null`. -/
def orNull (v : Option String) : Option String :=
  match v with
  | some s => if s = "" then none else some s
  | none => none

/-- Source: `[personData.firstName, personData.lastName].filter(Boolean).join(' ')
.trim()`. -/
def personDisplayName (d : PersonFormData) : String :=
  (String.intercalate " "
    (([some d.firstName, d.lastName].filterMap id).filter fun s => s ≠ "")).trim

/-- The DTO assembled on a successful person submit (`ContactForm.tsx`
149–172): `contactType` only in create mode, `firstName` as typed, the other
person fields through `|| null`. -/
def personDto (isEditMode : Bool) (d : PersonFormData) : SubmittedDto :=
  { contactType := if isEditMode then none else some .person
    displayName := personDisplayName d
    firstName := some d.firstName
    lastName := orNull d.lastName
    email := orNull d.email
    mobileNumber := orNull d.mobileNumber
    country := orNull d.country
    joinDate := orNull d.joinDate
    legalName := none
    taxId := none
    registrationNumber := none }

/-- The DTO assembled on a successful organization submit (`ContactForm.tsx`
186–207): `displayName` is the legal name. -/
def organizationDto (isEditMode : Bool) (d : OrganizationFormData) : SubmittedDto :=
  { contactType := if isEditMode then none else some .organization
    displayName := d.legalName
    firstName := none
    lastName := none
    email := none
    mobileNumber := none
    country := none
    joinDate := none
    legalName := some d.legalName
    taxId := orNull d.taxId
    registrationNumber := orNull d.registrationNumber }

/-- The outcome of `handleSubmit`: either `setErrors(fieldErrors); return`
(no call to `onSubmit`, hence no network request) or exactly one call
`onSubmit(dto)`. -/
inductive SubmitResult where
  | rejected (fieldErrors : List (String × String))
  | submitted (dto : SubmittedDto)
deriving DecidableEq, Repr

/-- Source: `handleSubmit` (`ContactForm.tsx` 127–209): validate the active contact
type's form data against its schema; on failure record the per-field errors
and stop, on success call `onSubmit` with the assembled DTO. -/
def handleSubmit (emailValid : String → Bool) (isEditMode : Bool)
    (contactType : ContactType) (personData : PersonFormData)
    (orgData : OrganizationFormData) : SubmitResult :=
  match contactType with
  | .person =>
    let errs := personSchemaErrors emailValid personData
    if errs.isEmpty then .submitted (personDto isEditMode personData)
    else .rejected errs
  | .organization =>
    let errs := organizationSchemaErrors orgData
    if errs.isEmpty then .submitted (organizationDto isEditMode orgData)
    else .rejected errs

/-! ## View state and the contacts-list request (`ContactsPage.tsx` 78–111,
196–202; `src/features/contacts/api/contacts-api.ts` 94–128) -/

/-- The page's filter/sort/pagination state (`useState` fields of
`ContactsPage`). `filterType : ContactType | ''` and the filters are at their
empty defaults when `none`/`""`. -/
structure ViewState where
  searchQuery : String
  filterStatus : StatusFilter
  filterType : Option ContactType
  joinDateFilter : String
  filtersExpanded : Bool
  currentPage : Nat
  rowsPerPage : Nat
  sortField : Option SortField
  sortDirection : SortDirection
deriving DecidableEq, Repr

/-- Source: `clearFilters` (`ContactsPage.tsx` 196–202): reset search, status, type
and join-date filters and the page, in one state transition. -/
def clearFilters (s : ViewState) : ViewState :=
  { s with
    searchQuery := ""
    filterStatus := .blank
    filterType := none
    joinDateFilter := ""
    currentPage := 1 }

/-- Source: `ContactsListParams` (the argument of `contactsApi.getAll`). -/
structure ContactsListParams where
  contactType : Option ContactType
  isActive : Option Bool
  search : Option String
  page : Option Nat
  limit : Option Nat
  sortBy : Option String
  sortOrder : Option String
  joinDateFrom : Option String
  joinDateTo : Option String
deriving DecidableEq, Repr

/-- The params the page passes to `useContacts` (`ContactsPage.tsx` 104–111):
status mapped to an `isActive` boolean, `contactType`/`search` with `''`
coerced to `undefined`, `limit: 500`, the join-date range spread in, and no
`page`/`sortBy`/`sortOrder` at all. -/
def useContactsParams (s : ViewState) (today : JsDate) : ContactsListParams :=
  let range := getJoinDateRange s.joinDateFilter today
  { isActive :=
      match s.filterStatus with
      | .active => some true
      | .inactive => some false
      | .blank => none
    contactType := s.filterType
    search := if s.searchQuery = "" then none else some s.searchQuery
    page := none
    limit := some 500
    sortBy := none
    sortOrder := none
    joinDateFrom := range.joinDateFrom
    joinDateTo := range.joinDateTo }

/-- Source: `if (params?.x) searchParams.set(k, x)` for a string param: set only when
truthy (present and non-empty). -/
def setIfStr (k : String) (v : Option String) : List (String × String) :=
  match v with
  | some s => if s = "" then [] else [(k, s)]
  | none => []

/-- Source: `if (params?.n) searchParams.set(k, n.toString())` for a number param:
set only when truthy (present and non-zero). -/
def setIfNat (k : String) (v : Option Nat) : List (String × String) :=
  match v with
  | some n => if n = 0 then [] else [(k, toString n)]
  | none => []

/-- Source: `if (params?.isActive !== undefined) searchParams.set('isActive',
isActive.toString())`: an explicit undefined check, so `false` is sent. -/
def setIfBool (k : String) (v : Option Bool) : List (String × String) :=
  match v with
  | some b => [(k, if b then "true" else "false")]
  | none => []

/-- The query parameters built by `contactsApi.getAll` (features version,
`contacts-api.ts` 95–125), in insertion order. -/
def getAllQueryParams (params : ContactsListParams) : List (String × String) :=
  setIfStr "contactType" (params.contactType.map ctString) ++
  setIfBool "isActive" params.isActive ++
  setIfStr "search" params.search ++
  setIfNat "page" params.page ++
  setIfNat "limit" params.limit ++
  setIfStr "sortBy" params.sortBy ++
  setIfStr "sortOrder" params.sortOrder ++
  setIfStr "joinDateFrom" params.joinDateFrom ++
  setIfStr "joinDateTo" params.joinDateTo

/-! ## Concrete rows used by the witness theorems -/

/-- An active person. -/
def annRow : Contact := ⟨"c-1", .person, "Ann", true, some "2024-03-05"⟩

/-- An inactive person with no join date. -/
def bobRow : Contact := ⟨"c-2", .person, "Bob", false, none⟩

/-- An active organization. -/
def calRow : Contact := ⟨"c-3", .organization, "Cal Ltd", true, some "2023-11-20"⟩

/-- An inactive organization. -/
def dotRow : Contact := ⟨"c-4", .organization, "Dot Inc", false, none⟩

/-- An active person sharing `eveRow2`'s display name. -/
def eveRow1 : Contact := ⟨"c-5", .person, "Eve", true, some "2022-01-01"⟩

/-- A distinct active person with the same display name as `eveRow1`. -/
def eveRow2 : Contact := ⟨"c-6", .person, "Eve", true, none⟩

/-- The person form's initial state: every field the empty string. -/
def emptyPerson : PersonFormData := ⟨"", some "", some "", some "", some "", some ""⟩

/-- The organization form's initial state. -/
def emptyOrg : OrganizationFormData := ⟨"", some "", some "", some "", some ""⟩

/-- The page's mount-time view state: empty filters, page 1, 10 rows, no
sort. -/
def initialViewState : ViewState :=
  ⟨"", .blank, none, "", false, 1, 10, none, .asc⟩

/-! ## Theorems -/

/-- C1: the status re-filter, applied before sorting and pagination, retains
only rows whose `isActive` flag matches a non-empty `statusFilter`
(`inactive` → `isActive = false`, `active` → `isActive = true`) and is the
identity on arbitrary input when `statusFilter` is empty — including inputs
in which wrong-status rows survive because the server ignored the filter. -/
theorem statusRefilter_correct (rawContacts : List Contact) :
    (∀ c ∈ filteredContacts .inactive rawContacts, c.isActive = false) ∧
    (∀ c ∈ filteredContacts .active rawContacts, c.isActive = true) ∧
    filteredContacts .blank rawContacts = rawContacts := by
  refine ⟨fun c hc => ?_, fun c hc => ?_, rfl⟩
  · simp only [filteredContacts, statusMatches, List.mem_filter] at hc
    simpa using hc.2
  · simp only [filteredContacts, statusMatches, List.mem_filter] at hc
    simpa using hc.2

/-- Witness for C1 at a concrete mixed list: `bobRow` survives the
`inactive` re-filter and is indeed inactive. -/
theorem statusRefilter_correct_witness :
    bobRow ∈ filteredContacts .inactive [annRow, bobRow, calRow] ∧
    bobRow.isActive = false :=
  ⟨by decide, (statusRefilter_correct [annRow, bobRow, calRow]).1 bobRow (by decide)⟩

/-- C7: if exactly one of the three role-type sub-fetches rejects and the
other two fulfill, `getAllRolesForContact` still resolves, with `[]` in the
rejected slot and exactly the fulfilled (client-re-filtered) values in the
other two slots — for each of the three positions of the failure. -/
theorem rolesAggregate_partial_failure (contactId : String) (e : ApiError)
    (d1 : Option (List Player)) (d2 : Option (List Partner))
    (d3 : Option (List HncMember)) :
    getAllRolesForContact (getPlayersByContact contactId (.error e))
        (getPartnersByContact contactId (.ok d2))
        (getHncMembersByContact contactId (.ok d3)) =
      ⟨[], (d2.getD []).filter (fun r => r.contactId == contactId),
        (d3.getD []).filter fun r => r.contactId == contactId⟩ ∧
    getAllRolesForContact (getPlayersByContact contactId (.ok d1))
        (getPartnersByContact contactId (.error e))
        (getHncMembersByContact contactId (.ok d3)) =
      ⟨(d1.getD []).filter (fun r => r.contactId == contactId), [],
        (d3.getD []).filter fun r => r.contactId == contactId⟩ ∧
    getAllRolesForContact (getPlayersByContact contactId (.ok d1))
        (getPartnersByContact contactId (.ok d2))
        (getHncMembersByContact contactId (.error e)) =
      ⟨(d1.getD []).filter (fun r => r.contactId == contactId),
        (d2.getD []).filter (fun r => r.contactId == contactId), []⟩ :=
  ⟨rfl, rfl, rfl⟩

/-- C9: `clearFilters` is one state transition that resets the four filter
fields and the page, and leaves the sort field, sort direction, rows-per-page
and every other view-state field unchanged. -/
theorem clearFilters_resets_filters_only (s : ViewState) :
    (clearFilters s).searchQuery = "" ∧
    (clearFilters s).filterStatus = .blank ∧
    (clearFilters s).filterType = none ∧
    (clearFilters s).joinDateFilter = "" ∧
    (clearFilters s).currentPage = 1 ∧
    (clearFilters s).sortField = s.sortField ∧
    (clearFilters s).sortDirection = s.sortDirection ∧
    (clearFilters s).rowsPerPage = s.rowsPerPage ∧
    (clearFilters s).filtersExpanded = s.filtersExpanded :=
  ⟨rfl, rfl, rfl, rfl, rfl, rfl, rfl, rfl, rfl⟩

/-- The computed `totalPages` is an upper ceiling: the pages cover all items. -/
theorem totalItems_le_totalPages_mul {r : Nat} (hr : 0 < r) (T : Nat) :
    T ≤ totalPages T r * r := by
  have h : totalPages T r = T ⌈/⌉ r := rfl
  have h2 := le_smul_ceilDiv (α := ℕ) (β := ℕ) hr (b := T)
  rw [h]
  simpa [smul_eq_mul, Nat.mul_comm] using h2

/-- The computed `totalPages` is the least page count covering all items. -/
theorem totalPages_le_of_le {r : Nat} (hr : 0 < r) {T q : Nat} (h : T ≤ q * r) :
    totalPages T r ≤ q := by
  have h2 : totalPages T r = T ⌈/⌉ r := rfl
  rw [h2]
  exact (ceilDiv_le_iff_le_mul hr).2 (by simpa [Nat.mul_comm] using h)

/-- The page count is zero exactly when there are no items. -/
theorem totalPages_eq_zero_iff {r : Nat} (hr : 0 < r) (T : Nat) :
    totalPages T r = 0 ↔ T = 0 := by
  constructor
  · intro h
    have h2 := totalItems_le_totalPages_mul hr T
    rw [h] at h2
    simpa using h2
  · intro h
    subst h
    have h2 : totalPages 0 r ≤ 0 := totalPages_le_of_le hr (by simp)
    omega

/-- All pages before the last are fully used. -/
theorem totalPages_pred_mul_lt {r : Nat} (hr : 0 < r) {T : Nat} (hT : T ≠ 0) :
    (totalPages T r - 1) * r < T := by
  by_contra h
  push_neg at h
  have h2 := totalPages_le_of_le hr h
  have h3 : totalPages T r ≠ 0 := fun h0 => hT ((totalPages_eq_zero_iff hr T).1 h0)
  omega

/-- C2: for any post-sort list, `pageSize > 0` and 1-based `pageNumber`, the
page count is the exact ceiling `⌈totalItems / pageSize⌉` (zero exactly when
there are no items), the displayed rows are precisely the slice
`[startIndex, endIndex)` of the sorted list, and every in-range page has
`pageSize` rows except the last, which has `totalItems − (totalPages−1) ·
pageSize`. -/
theorem pagination_slice_correct (allCs : List Contact) (pageSize pageNumber : Nat)
    (hps : 0 < pageSize) (hpn : 1 ≤ pageNumber) :
    (totalItems allCs ≤ totalPages (totalItems allCs) pageSize * pageSize) ∧
    (totalItems allCs = 0 ∨
      (totalPages (totalItems allCs) pageSize - 1) * pageSize < totalItems allCs) ∧
    (totalPages (totalItems allCs) pageSize = 0 ↔ totalItems allCs = 0) ∧
    (∀ i : Nat,
      (paginatedContacts allCs pageNumber pageSize)[i]? =
        if startIndex pageNumber pageSize + i <
            endIndex pageNumber pageSize (totalItems allCs)
        then allCs[startIndex pageNumber pageSize + i]? else none) ∧
    (pageNumber ≤ totalPages (totalItems allCs) pageSize →
      (paginatedContacts allCs pageNumber pageSize).length =
        if pageNumber = totalPages (totalItems allCs) pageSize
        then totalItems allCs - (totalPages (totalItems allCs) pageSize - 1) * pageSize
        else pageSize) := by
  have hmul := totalItems_le_totalPages_mul hps (totalItems allCs)
  refine ⟨hmul, ?_, totalPages_eq_zero_iff hps _, ?_, ?_⟩
  · rcases Nat.eq_zero_or_pos (totalItems allCs) with h | h
    · exact Or.inl h
    · exact Or.inr (totalPages_pred_mul_lt hps (by omega))
  · intro i
    show ((allCs.take _).drop _)[i]? = _
    rw [List.getElem?_drop]
    by_cases hlt : startIndex pageNumber pageSize + i <
        endIndex pageNumber pageSize (totalItems allCs)
    · rw [if_pos hlt, List.getElem?_take_of_lt hlt]
    · rw [if_neg hlt]
      apply List.getElem?_eq_none
      rw [List.length_take]
      have hlen : allCs.length = totalItems allCs := rfl
      have he : endIndex pageNumber pageSize (totalItems allCs) ≤
          startIndex pageNumber pageSize + i := by omega
      omega
  · intro hle
    have hlen : (paginatedContacts allCs pageNumber pageSize).length =
        min (endIndex pageNumber pageSize (totalItems allCs)) (totalItems allCs) -
          startIndex pageNumber pageSize := by
      show ((allCs.take _).drop _).length = _
      rw [List.length_drop, List.length_take]
      rfl
    have hP1 : 1 ≤ totalPages (totalItems allCs) pageSize := le_trans hpn hle
    have hT0 : totalItems allCs ≠ 0 := by
      intro h0
      have := (totalPages_eq_zero_iff hps (totalItems allCs)).2 h0
      omega
    have hpred := totalPages_pred_mul_lt hps hT0
    rw [hlen]
    simp only [endIndex, startIndex]
    by_cases hp : pageNumber = totalPages (totalItems allCs) pageSize
    · rw [if_pos hp, hp]
      have hsum : (totalPages (totalItems allCs) pageSize - 1) * pageSize + pageSize =
          totalPages (totalItems allCs) pageSize * pageSize := by
        cases h : totalPages (totalItems allCs) pageSize with
        | zero => omega
        | succ n => simp [Nat.succ_sub_one, Nat.succ_mul]
      generalize (totalPages (totalItems allCs) pageSize - 1) * pageSize = B at *
      generalize totalPages (totalItems allCs) pageSize * pageSize = A at *
      omega
    · rw [if_neg hp]
      have hplt : pageNumber ≤ totalPages (totalItems allCs) pageSize - 1 := by omega
      have hsum : (pageNumber - 1) * pageSize + pageSize = pageNumber * pageSize := by
        cases pageNumber with
        | zero => omega
        | succ n => simp [Nat.succ_sub_one, Nat.succ_mul]
      have hmono : pageNumber * pageSize ≤
          (totalPages (totalItems allCs) pageSize - 1) * pageSize :=
        Nat.mul_le_mul_right _ hplt
      generalize (pageNumber - 1) * pageSize = X at *
      generalize pageNumber * pageSize = Y at *
      generalize (totalPages (totalItems allCs) pageSize - 1) * pageSize = B at *
      omega

/-- Witness for C2: five rows, page size 2, page 3 (the last page) shows
exactly one row. -/
theorem pagination_slice_correct_witness :
    0 < 2 ∧ 1 ≤ 3 ∧
    (paginatedContacts [annRow, bobRow, calRow, dotRow, eveRow1] 3 2).length = 1 := by
  refine ⟨by decide, by decide, ?_⟩
  have h :=
    (pagination_slice_correct [annRow, bobRow, calRow, dotRow, eveRow1] 2 3
      (by decide) (by decide)).2.2.2.2 (by decide)
  rw [h]
  decide

/-- C3: whenever `pageNumber` exceeds `totalPages` (so `startIndex ≥
totalItems`), the pagination step returns the empty list — it is a total
function, with no out-of-bounds access and no negative-length slice. -/
theorem pagination_out_of_range_empty (allCs : List Contact)
    (rowsPerPage currentPage : Nat) (hr : 0 < rowsPerPage)
    (hgt : totalPages (totalItems allCs) rowsPerPage < currentPage) :
    paginatedContacts allCs currentPage rowsPerPage = [] := by
  have hmul := totalItems_le_totalPages_mul hr (totalItems allCs)
  have hstart : totalItems allCs ≤ startIndex currentPage rowsPerPage := by
    calc totalItems allCs ≤ totalPages (totalItems allCs) rowsPerPage * rowsPerPage :=
          hmul
    _ ≤ (currentPage - 1) * rowsPerPage := Nat.mul_le_mul_right _ (by omega)
    _ = startIndex currentPage rowsPerPage := rfl
  apply List.drop_eq_nil_of_le
  rw [List.length_take]
  have h1 : endIndex currentPage rowsPerPage (totalItems allCs) ≤ totalItems allCs :=
    Nat.min_le_right _ _
  omega

/-- Witness for C3: page 9 of a two-row list with page size 10 is empty. -/
theorem pagination_out_of_range_empty_witness :
    0 < 10 ∧ totalPages (totalItems [annRow, bobRow]) 10 < 9 ∧
    paginatedContacts [annRow, bobRow] 9 10 = [] :=
  ⟨by decide, by decide,
    pagination_out_of_range_empty [annRow, bobRow] 10 9 (by decide) (by decide)⟩

/-! ### Order-theoretic facts about the comparator -/

/-- Asymmetry of `svLt`. -/
theorem svLt_asymm {x y : SortVal} (h1 : svLt x y = true) (h2 : svLt y x = true) :
    False := by
  cases x <;> cases y <;> simp only [svLt, decide_eq_true_eq] at h1 h2
  case str.str => exact absurd h2 (lt_asymm h1)
  case str.bool => exact Bool.noConfusion h1
  case bool.str => exact Bool.noConfusion h1
  case bool.bool => simp_all

/-- Irreflexivity of `svLt`. -/
theorem svLt_irrefl (x : SortVal) : svLt x x = false := by
  cases x with
  | str s => simp [svLt]
  | bool b => cases b <;> rfl

/-- Each sortable field produces keys of a single runtime type: a string key
for the three string-valued columns, a boolean key for `isActive`. -/
theorem sortKey_homog (f : SortField) :
    (∀ c, ∃ s, sortKey f c = .str s) ∨ (∀ c, ∃ b, sortKey f c = .bool b) := by
  cases f with
  | displayName => exact Or.inl fun c => ⟨_, rfl⟩
  | contactType => exact Or.inl fun c => ⟨_, rfl⟩
  | isActive => exact Or.inr fun c => ⟨c.isActive, rfl⟩
  | joinDate =>
    refine Or.inl fun c => ?_
    cases h : c.joinDate with
    | none =>
      exact ⟨jsToLower "", by simp [sortKey, sortFieldVal, rawFieldVal, svToLower, h]⟩
    | some s =>
      exact ⟨jsToLower s, by simp [sortKey, sortFieldVal, rawFieldVal, svToLower, h]⟩

/-- The comparator at a set sort field, written over `sortKey`. -/
theorem contactCompare_some (f : SortField) (dir : SortDirection) (a b : Contact) :
    contactCompare (some f) dir a b =
      (if svLt (sortKey f a) (sortKey f b) then
        (match dir with | .asc => -1 | .desc => 1)
      else if svLt (sortKey f b) (sortKey f a) then
        (match dir with | .asc => 1 | .desc => -1)
      else 0) := rfl

/-- Ascending `sortLe` says the right key is not below the left key. -/
theorem sortLe_asc (f : SortField) (a b : Contact) :
    sortLe (some f) .asc a b = !svLt (sortKey f b) (sortKey f a) := by
  rw [sortLe, contactCompare_some]
  by_cases h1 : svLt (sortKey f a) (sortKey f b) = true
  · have h2 : svLt (sortKey f b) (sortKey f a) = false := by
      cases h2 : svLt (sortKey f b) (sortKey f a)
      · rfl
      · exact absurd (svLt_asymm h1 h2) id
    rw [if_pos h1, h2]
    rfl
  · rw [if_neg h1]
    by_cases h2 : svLt (sortKey f b) (sortKey f a) = true
    · rw [if_pos h2, h2]
      rfl
    · rw [if_neg h2, Bool.not_eq_true] at *
      rw [h2]
      rfl

/-- Descending `sortLe` says the left key is not below the right key. -/
theorem sortLe_desc (f : SortField) (a b : Contact) :
    sortLe (some f) .desc a b = !svLt (sortKey f a) (sortKey f b) := by
  rw [sortLe, contactCompare_some]
  by_cases h1 : svLt (sortKey f a) (sortKey f b) = true
  · rw [if_pos h1, h1]
    rfl
  · rw [if_neg h1]
    by_cases h2 : svLt (sortKey f b) (sortKey f a) = true
    · rw [if_pos h2, Bool.not_eq_true] at *
      rw [h1]
      rfl
    · rw [if_neg h2, Bool.not_eq_true] at *
      rw [h1]
      rfl

/-- With the filter unset the comparator always returns `0`, so `sortLe` is
the total relation. -/
theorem sortLe_none (dir : SortDirection) (a b : Contact) :
    sortLe none dir a b = true := rfl

/-- Totality of `sortLe` (any two rows are comparable without swapping one way
or the other). -/
theorem sortLe_total (sf : Option SortField) (dir : SortDirection) (a b : Contact) :
    sortLe sf dir a b || sortLe sf dir b a := by
  cases sf with
  | none => rw [sortLe_none, sortLe_none]; rfl
  | some f =>
    have key : ∀ x y : Contact, !svLt (sortKey f x) (sortKey f y) ||
        !svLt (sortKey f y) (sortKey f x) := by
      intro x y
      by_cases h : svLt (sortKey f x) (sortKey f y) = true
      · have h2 : svLt (sortKey f y) (sortKey f x) = false := by
          cases h2 : svLt (sortKey f y) (sortKey f x)
          · rfl
          · exact absurd (svLt_asymm h h2) id
        simp [h2]
      · rw [Bool.not_eq_true] at h
        simp [h]
    cases dir with
    | asc => rw [sortLe_asc, sortLe_asc]; exact key b a
    | desc => rw [sortLe_desc, sortLe_desc]; exact key a b

/-- The not-below relation on string keys is transitive (lexicographic string
order is linear). -/
theorem str_not_lt_trans {s t u : String} (h1 : ¬ t < s) (h2 : ¬ u < t) :
    ¬ u < s := by
  intro h
  exact absurd (lt_of_lt_of_le h (le_trans (not_lt.mp h1) (not_lt.mp h2)))
    (lt_irrefl u)

/-- Transitivity of `sortLe` on rows: both keys of any comparison come from the
same column, hence are homogeneous. -/
theorem sortLe_trans (sf : Option SortField) (dir : SortDirection)
    (a b c : Contact) (h1 : sortLe sf dir a b) (h2 : sortLe sf dir b c) :
    sortLe sf dir a c := by
  cases sf with
  | none => rw [sortLe_none]
  | some f =>
    have key : ∀ x y z : Contact, !svLt (sortKey f y) (sortKey f x) →
        !svLt (sortKey f z) (sortKey f y) → !svLt (sortKey f z) (sortKey f x) := by
      intro x y z hxy hyz
      rcases sortKey_homog f with hs | hb
      · obtain ⟨sx, hx⟩ := hs x
        obtain ⟨sy, hy⟩ := hs y
        obtain ⟨sz, hz⟩ := hs z
        rw [hx, hy] at hxy
        rw [hy, hz] at hyz
        rw [hx, hz]
        simp only [svLt, Bool.not_eq_true', decide_eq_false_iff_not] at hxy hyz ⊢
        exact str_not_lt_trans hxy hyz
      · obtain ⟨bx, hx⟩ := hb x
        obtain ⟨by2, hy⟩ := hb y
        obtain ⟨bz, hz⟩ := hb z
        rw [hx, hy] at hxy
        rw [hy, hz] at hyz
        rw [hx, hz]
        simp only [svLt] at hxy hyz ⊢
        cases bx <;> cases by2 <;> cases bz <;> simp_all
    cases dir with
    | asc =>
      rw [sortLe_asc] at h1 h2 ⊢
      exact key a b c h1 h2
    | desc =>
      rw [sortLe_desc] at h1 h2 ⊢
      exact key c b a h2 h1

/-- A relation that holds everywhere holds pairwise on any list. -/
theorem pairwise_of_total {R : α → α → Prop} (h : ∀ a b, R a b) (l : List α) :
    l.Pairwise R := by
  induction l with
  | nil => exact .nil
  | cons x xs ih => exact .cons (fun y _ => h x y) ih

/-- Stability as filter-invariance: a stable sort leaves the subsequence of
rows satisfying a predicate that only selects mutually tied rows exactly as
it was in the input. -/
theorem mergeSort_filter_invariant {α} (le : α → α → Bool)
    (htrans : ∀ a b c, le a b → le b c → le a c)
    (htotal : ∀ a b, le a b || le b a)
    (p : α → Bool) (hp : ∀ a b, p a → p b → le a b) (l : List α) :
    (l.mergeSort le).filter p = l.filter p := by
  have hpw : (l.filter p).Pairwise (fun a b => le a b) := by
    apply List.pairwise_of_forall_mem_list
    intro a ha b hb
    exact hp a b (List.of_mem_filter ha) (List.of_mem_filter hb)
  have hsub : List.Sublist (l.filter p) (l.mergeSort le) :=
    List.sublist_mergeSort htrans htotal hpw (List.filter_sublist l)
  have hperm : List.Perm ((l.mergeSort le).filter p) (l.filter p) :=
    (List.mergeSort_perm l le).filter p
  have hsub2 : List.Sublist (l.filter p) ((l.mergeSort le).filter p) := by
    have h3 := List.Sublist.filter p hsub
    rwa [List.filter_filter, show (fun a => p a && p a) = p from funext fun a =>
      Bool.and_self (p a)] at h3
  exact (hsub2.eq_of_length hperm.length_eq.symm).symm

/-- Lowercasing preserves emptiness. -/
theorem jsToLower_eq_empty_iff (s : String) : jsToLower s = "" ↔ s = "" := by
  constructor
  · intro h
    have h2 : s.data.map Char.toLower = [] := congrArg String.data h
    have h3 : s.data = [] := List.map_eq_nil_iff.mp h2
    exact String.ext h3
  · intro h
    rw [h]
    rfl

/-- The empty string is strictly below every non-empty string. -/
theorem empty_string_lt {t : String} (h : t ≠ "") : "" < t := by
  rw [String.lt_iff_toList_lt]
  cases ht : t.toList with
  | nil => exact absurd (String.ext (show t.data = [] from ht)) h
  | cons c cs => exact List.nil_lt_cons c cs

/-- A null/missing field value is compared as the (lowercased) empty
string. -/
theorem sortKey_of_rawFieldVal_none {f : SortField} {c : Contact}
    (h : rawFieldVal f c = none) : sortKey f c = .str "" := by
  rw [sortKey, sortFieldVal, h]
  rfl

/-- The sort key of a row with a present non-empty string value is a
non-empty string, and that of a boolean value a boolean. -/
theorem sortKey_of_nonEmpty {f : SortField} {c : Contact}
    (h : nonEmptyFieldVal f c) :
    (∃ t, sortKey f c = .str t ∧ t ≠ "") ∨ (∃ b, sortKey f c = .bool b) := by
  rw [nonEmptyFieldVal] at h
  rcases hr : rawFieldVal f c with _ | v
  · rw [hr] at h
    exact absurd h id
  · rcases v with s | b
    · rw [hr] at h
      refine Or.inl ⟨jsToLower s, ?_, ?_⟩
      · rw [sortKey, sortFieldVal, hr]
        rfl
      · intro h2
        exact h ((jsToLower_eq_empty_iff s).mp h2)
    · refine Or.inr ⟨b, ?_⟩
      rw [sortKey, sortFieldVal, hr]
      rfl

/-- C4: the sort step is stable and direction only negates the comparator.
Any two rows with equal sort keys (after null-coercion and case-folding)
keep their input relative order in the output in either direction; the
subsequence of rows tied at any key value is identical between ascending
and descending output; and with `sortField` unset the step returns the
input list unchanged. -/
theorem sort_stable_direction_only :
    (∀ (f : SortField) (dir : SortDirection) (l : List Contact) (a b : Contact),
        List.Sublist [a, b] l → sortKey f a = sortKey f b →
        List.Sublist [a, b] (allContacts (some f) dir l)) ∧
    (∀ (f : SortField) (l : List Contact) (v : SortVal),
        (allContacts (some f) .asc l).filter (fun c => sortKey f c == v) =
          (allContacts (some f) .desc l).filter (fun c => sortKey f c == v)) ∧
    (∀ (dir : SortDirection) (l : List Contact), allContacts none dir l = l) := by
  have hle_of_eq : ∀ (f : SortField) (dir : SortDirection) (a b : Contact),
      sortKey f a = sortKey f b → sortLe (some f) dir a b = true := by
    intro f dir a b h
    cases dir with
    | asc => rw [sortLe_asc, h, svLt_irrefl]; rfl
    | desc => rw [sortLe_desc, h, svLt_irrefl]; rfl
  refine ⟨?_, ?_, ?_⟩
  · intro f dir l a b hsub hkey
    exact List.pair_sublist_mergeSort (sortLe_trans (some f) dir)
      (sortLe_total (some f) dir) (hle_of_eq f dir a b hkey) hsub
  · intro f l v
    have hp : ∀ (dir : SortDirection) (a b : Contact),
        (sortKey f a == v) = true → (sortKey f b == v) = true →
        sortLe (some f) dir a b = true := by
      intro dir a b ha hb
      rw [beq_iff_eq] at ha hb
      exact hle_of_eq f dir a b (ha.trans hb.symm)
    have h1 := mergeSort_filter_invariant (sortLe (some f) .asc)
      (sortLe_trans (some f) .asc) (sortLe_total (some f) .asc)
      (fun c => sortKey f c == v) (hp .asc) l
    have h2 := mergeSort_filter_invariant (sortLe (some f) .desc)
      (sortLe_trans (some f) .desc) (sortLe_total (some f) .desc)
      (fun c => sortKey f c == v) (hp .desc) l
    show (List.mergeSort l _).filter _ = (List.mergeSort l _).filter _
    rw [h1, h2]
  · intro dir l
    show l.mergeSort (sortLe none dir) = l
    exact List.mergeSort_of_sorted (pairwise_of_total (sortLe_none dir) l)

/-- Witness for C4: the two rows named "Eve" keep their order under a
descending sort of a concrete list that separates them. -/
theorem sort_stable_direction_only_witness :
    List.Sublist [eveRow1, eveRow2] [eveRow1, annRow, eveRow2] ∧
    sortKey .displayName eveRow1 = sortKey .displayName eveRow2 ∧
    List.Sublist [eveRow1, eveRow2]
      (allContacts (some .displayName) .desc [eveRow1, annRow, eveRow2]) := by
  have hsub : List.Sublist [eveRow1, eveRow2] [eveRow1, annRow, eveRow2] :=
    .cons₂ _ (.cons _ (.cons₂ _ .slnil))
  exact ⟨hsub, rfl,
    sort_stable_direction_only.1 .displayName .desc [eveRow1, annRow, eveRow2]
      eveRow1 eveRow2 hsub rfl⟩

/-- C5: with a sort field set, rows whose value for that field is null or
missing are compared as the empty string: ascending, no non-empty-valued row
precedes them being followed by them — i.e. every null row sits before every
non-empty row; descending, the mirror image. Stated positionally on the
sorted output. -/
theorem nulls_sort_as_empty_string :
    ∀ (f : SortField) (l : List Contact) (i j : Nat) (ci cj : Contact), i < j →
      (((allContacts (some f) .asc l)[i]? = some ci →
        (allContacts (some f) .asc l)[j]? = some cj →
        rawFieldVal f cj = none → ¬ nonEmptyFieldVal f ci) ∧
       ((allContacts (some f) .desc l)[i]? = some ci →
        (allContacts (some f) .desc l)[j]? = some cj →
        rawFieldVal f ci = none → ¬ nonEmptyFieldVal f cj)) := by
  intro f l i j ci cj hij
  have main : ∀ (x y : Contact), sortLe (some f) .asc x y = true →
      rawFieldVal f y = none → ¬ nonEmptyFieldVal f x := by
    intro x y hle hnull hne
    rw [sortLe_asc, sortKey_of_rawFieldVal_none hnull] at hle
    rcases sortKey_of_nonEmpty hne with ⟨t, ht, htne⟩ | ⟨b, hb⟩
    · rw [ht] at hle
      have hlt : svLt (.str "") (.str t) = true := by
        simpa [svLt] using empty_string_lt htne
      rw [hlt] at hle
      exact Bool.noConfusion hle
    · rcases sortKey_homog f with hs | hblt
      · obtain ⟨s, hsy⟩ := hs x
        rw [hb] at hsy
        exact SortVal.noConfusion hsy
      · obtain ⟨b2, hby⟩ := hblt y
        rw [sortKey_of_rawFieldVal_none hnull] at hby
        exact SortVal.noConfusion hby
  constructor
  · intro hi hj hnull
    obtain ⟨hilt, hieq⟩ := List.getElem?_eq_some_iff.mp hi
    obtain ⟨hjlt, hjeq⟩ := List.getElem?_eq_some_iff.mp hj
    have hsorted : ((allContacts (some f) .asc l).Pairwise
        fun a b => sortLe (some f) .asc a b = true) :=
      List.sorted_mergeSort (sortLe_trans (some f) .asc)
        (sortLe_total (some f) .asc) l
    have hle := List.pairwise_iff_getElem.mp hsorted i j hilt hjlt hij
    rw [hieq, hjeq] at hle
    exact main ci cj hle hnull
  · intro hi hj hnull hne
    obtain ⟨hilt, hieq⟩ := List.getElem?_eq_some_iff.mp hi
    obtain ⟨hjlt, hjeq⟩ := List.getElem?_eq_some_iff.mp hj
    have hsorted : ((allContacts (some f) .desc l).Pairwise
        fun a b => sortLe (some f) .desc a b = true) :=
      List.sorted_mergeSort (sortLe_trans (some f) .desc)
        (sortLe_total (some f) .desc) l
    have hle := List.pairwise_iff_getElem.mp hsorted i j hilt hjlt hij
    rw [hieq, hjeq] at hle
    rw [sortLe_desc, sortKey_of_rawFieldVal_none hnull] at hle
    rcases sortKey_of_nonEmpty hne with ⟨t, ht, htne⟩ | ⟨b, hb⟩
    · rw [ht] at hle
      have hlt : svLt (.str "") (.str t) = true := by
        simpa [svLt] using empty_string_lt htne
      rw [hlt] at hle
      exact Bool.noConfusion hle
    · rcases sortKey_homog f with hs | hblt
      · obtain ⟨s, hsy⟩ := hs cj
        rw [hb] at hsy
        exact SortVal.noConfusion hsy
      · obtain ⟨b2, hby⟩ := hblt ci
        rw [sortKey_of_rawFieldVal_none hnull] at hby
        exact SortVal.noConfusion hby

/-- Witness for C5 at two rows without a join date: the earlier output row is
not a non-empty-valued row. -/
theorem nulls_sort_as_empty_string_witness :
    (0 : Nat) < 1 ∧
    (allContacts (some .joinDate) .asc [bobRow, dotRow])[0]? = some bobRow ∧
    (allContacts (some .joinDate) .asc [bobRow, dotRow])[1]? = some dotRow ∧
    rawFieldVal .joinDate dotRow = none ∧
    ¬ nonEmptyFieldVal .joinDate bobRow := by
  have hpw : List.Pairwise
      (fun a b => sortLe (some SortField.joinDate) SortDirection.asc a b = true)
      [bobRow, dotRow] := by
    refine List.Pairwise.cons (fun y hy => ?_)
      (List.Pairwise.cons (fun y hy => absurd hy (List.not_mem_nil y))
        List.Pairwise.nil)
    have hy2 := List.mem_singleton.mp hy
    subst hy2
    rw [sortLe_asc, show sortKey SortField.joinDate bobRow = .str "" from rfl,
      show sortKey SortField.joinDate dotRow = .str "" from rfl, svLt_irrefl]
    rfl
  have hsorted : allContacts (some SortField.joinDate) SortDirection.asc
      [bobRow, dotRow] = [bobRow, dotRow] := List.mergeSort_of_sorted hpw
  refine ⟨Nat.zero_lt_one, ?_, ?_, rfl, ?_⟩
  · rw [hsorted]
    rfl
  · rw [hsorted]
    rfl
  · exact (nulls_sort_as_empty_string .joinDate [bobRow, dotRow] 0 1 bobRow dotRow
      (by decide)).1 (by rw [hsorted]; rfl) (by rw [hsorted]; rfl) rfl

/-- The `last_year` branch depends only on the evaluation year. -/
theorem getJoinDateRange_last_year_eq (t : JsDate) :
    getJoinDateRange "last_year" t =
      ⟨some (isoYearStr (t.year - 1) ++ "-01-01"),
       some (isoYearStr (t.year - 1) ++ "-12-31")⟩ := by
  rw [getJoinDateRange]
  simp only [isoDateString]
  rw [show padNat 2 1 = "01" from rfl, show padNat 2 12 = "12" from rfl,
    show padNat 2 31 = "31" from rfl]
  simp [String.append_assoc]

/-- C6: on any evaluation date in year `Y`, `getJoinDateRange('last_year')`
returns exactly January 1 through December 31 of year `Y − 1` as
`YYYY-MM-DD` strings — a closed range independent of the month and day of
evaluation. -/
theorem getJoinDateRange_last_year (today : JsDate) :
    getJoinDateRange "last_year" today =
      ⟨some (isoYearStr (today.year - 1) ++ "-01-01"),
       some (isoYearStr (today.year - 1) ++ "-12-31")⟩ ∧
    (∀ d2 : JsDate, d2.year = today.year →
      getJoinDateRange "last_year" d2 = getJoinDateRange "last_year" today) ∧
    getJoinDateRange "last_year" ⟨2026, 10, 11⟩ =
      ⟨some "2025-01-01", some "2025-12-31"⟩ := by
  refine ⟨getJoinDateRange_last_year_eq today, ?_, ?_⟩
  · intro d2 hy
    rw [getJoinDateRange_last_year_eq, getJoinDateRange_last_year_eq, hy]
  · rw [getJoinDateRange_last_year_eq]
    rfl

/-- Witness for C6: two different days of 2026 produce the same 2025 range. -/
theorem getJoinDateRange_last_year_witness :
    (⟨2026, 1, 31⟩ : JsDate).year = (⟨2026, 10, 11⟩ : JsDate).year ∧
    getJoinDateRange "last_year" ⟨2026, 1, 31⟩ =
      getJoinDateRange "last_year" ⟨2026, 10, 11⟩ :=
  ⟨rfl, (getJoinDateRange_last_year ⟨2026, 10, 11⟩).2.1 ⟨2026, 1, 31⟩ rfl⟩

/-- C8: on submit, a schema rejection — empty `firstName` for a person,
empty `legalName` for an organization, or a non-empty email failing the
format check — records the per-field error message and returns without
calling `onSubmit` (so no network request); a schema acceptance calls
`onSubmit` exactly once with the assembled DTO. -/
theorem contactForm_submit_validation (emailValid : String → Bool)
    (isEditMode : Bool) (pd : PersonFormData) (od : OrganizationFormData) :
    (pd.firstName = "" →
      handleSubmit emailValid isEditMode .person pd od =
        .rejected (personSchemaErrors emailValid pd) ∧
      ("firstName", "First name is required") ∈ personSchemaErrors emailValid pd) ∧
    (∀ e, pd.email = some e → e ≠ "" → emailValid e = false →
      handleSubmit emailValid isEditMode .person pd od =
        .rejected (personSchemaErrors emailValid pd) ∧
      ("email", "Invalid email address") ∈ personSchemaErrors emailValid pd) ∧
    (od.legalName = "" →
      handleSubmit emailValid isEditMode .organization pd od =
        .rejected (organizationSchemaErrors od) ∧
      ("legalName", "Legal name is required") ∈ organizationSchemaErrors od) ∧
    (personSchemaErrors emailValid pd = [] →
      handleSubmit emailValid isEditMode .person pd od =
        .submitted (personDto isEditMode pd)) ∧
    (organizationSchemaErrors od = [] →
      handleSubmit emailValid isEditMode .organization pd od =
        .submitted (organizationDto isEditMode od)) := by
  refine ⟨?_, ?_, ?_, ?_, ?_⟩
  · intro h
    have hmem : ("firstName", "First name is required") ∈
        personSchemaErrors emailValid pd := by
      unfold personSchemaErrors
      rw [h]
      simp
    refine ⟨?_, hmem⟩
    have hne : (personSchemaErrors emailValid pd).isEmpty = false := by
      cases he : (personSchemaErrors emailValid pd).isEmpty
      · rfl
      · rw [List.isEmpty_iff] at he
        rw [he] at hmem
        exact absurd hmem (List.not_mem_nil _)
    simp [handleSubmit, hne]
  · intro e he hne hinv
    have hcond : (e = "" || emailValid e) = false := by
      rw [hinv, Bool.or_false]
      exact decide_eq_false hne
    have hmem : ("email", "Invalid email address") ∈
        personSchemaErrors emailValid pd := by
      unfold personSchemaErrors
      rw [he]
      simp [hcond]
    refine ⟨?_, hmem⟩
    have hne2 : (personSchemaErrors emailValid pd).isEmpty = false := by
      cases he2 : (personSchemaErrors emailValid pd).isEmpty
      · rfl
      · rw [List.isEmpty_iff] at he2
        rw [he2] at hmem
        exact absurd hmem (List.not_mem_nil _)
    simp [handleSubmit, hne2]
  · intro h
    have hmem : ("legalName", "Legal name is required") ∈
        organizationSchemaErrors od := by
      unfold organizationSchemaErrors
      rw [h]
      simp
    refine ⟨?_, hmem⟩
    have hne : (organizationSchemaErrors od).isEmpty = false := by
      cases he : (organizationSchemaErrors od).isEmpty
      · rfl
      · rw [List.isEmpty_iff] at he
        rw [he] at hmem
        exact absurd hmem (List.not_mem_nil _)
    simp [handleSubmit, hne]
  · intro h
    simp [handleSubmit, h]
  · intro h
    simp [handleSubmit, h]

/-- Witness for C8: the initial empty person form is rejected, with the
missing-first-name message recorded, under any email validator. -/
theorem contactForm_submit_validation_witness :
    emptyPerson.firstName = "" ∧
    handleSubmit (fun _ => false) false .person emptyPerson emptyOrg =
      .rejected (personSchemaErrors (fun _ => false) emptyPerson) ∧
    ("firstName", "First name is required") ∈
      personSchemaErrors (fun _ => false) emptyPerson :=
  ⟨rfl,
    ((contactForm_submit_validation (fun _ => false) false emptyPerson emptyOrg).1
      rfl).1,
    ((contactForm_submit_validation (fun _ => false) false emptyPerson emptyOrg).1
      rfl).2⟩

/-- Everything emitted by a string param setter carries its own key. -/
theorem setIfStr_key {k : String} {v : Option String} {kv : String × String}
    (h : kv ∈ setIfStr k v) : kv.1 = k := by
  rcases v with _ | s
  · exact absurd h (List.not_mem_nil kv)
  · rw [setIfStr] at h
    by_cases hs : s = ""
    · rw [if_pos hs] at h
      exact absurd h (List.not_mem_nil kv)
    · rw [if_neg hs] at h
      rw [List.mem_singleton.mp h]

/-- Everything emitted by a number param setter carries its own key. -/
theorem setIfNat_key {k : String} {v : Option Nat} {kv : String × String}
    (h : kv ∈ setIfNat k v) : kv.1 = k := by
  rcases v with _ | n
  · exact absurd h (List.not_mem_nil kv)
  · rw [setIfNat] at h
    by_cases hn : n = 0
    · rw [if_pos hn] at h
      exact absurd h (List.not_mem_nil kv)
    · rw [if_neg hn] at h
      rw [List.mem_singleton.mp h]

/-- Everything emitted by the boolean param setter carries its own key. -/
theorem setIfBool_key {k : String} {v : Option Bool} {kv : String × String}
    (h : kv ∈ setIfBool k v) : kv.1 = k := by
  rcases v with _ | b
  · exact absurd h (List.not_mem_nil kv)
  · rw [setIfBool] at h
    rw [List.mem_singleton.mp h]

/-- C10: in every view state the contacts-list request fixes `limit = 500`
and never sends a `page` parameter, so the pipeline input is at most the
first 500 server-side matches. -/
theorem contacts_request_limit_500 (s : ViewState) (today : JsDate) :
    (useContactsParams s today).limit = some 500 ∧
    (useContactsParams s today).page = none ∧
    ("limit", "500") ∈ getAllQueryParams (useContactsParams s today) ∧
    (∀ v, ("page", v) ∉ getAllQueryParams (useContactsParams s today)) := by
  refine ⟨rfl, rfl, ?_, ?_⟩
  · have hseg : ("limit", "500") ∈
        setIfNat "limit" (useContactsParams s today).limit :=
      List.mem_singleton.mpr rfl
    show ("limit", "500") ∈ _ ++ _ ++ _ ++ _ ++ _ ++ _ ++ _ ++ _ ++ _
    simp only [List.mem_append]
    exact Or.inl (Or.inl (Or.inl (Or.inl (Or.inr hseg))))
  · intro v hv
    simp only [getAllQueryParams, List.mem_append] at hv
    rcases hv with ((((((((h | h) | h) | h) | h) | h) | h) | h) | h)
    · simpa using setIfStr_key h
    · simpa using setIfBool_key h
    · simpa using setIfStr_key h
    · have hpage : setIfNat "page" (useContactsParams s today).page = [] := rfl
      rw [hpage] at h
      exact absurd h (List.not_mem_nil _)
    · simpa using setIfNat_key h
    · simpa using setIfStr_key h
    · simpa using setIfStr_key h
    · simpa using setIfStr_key h
    · simpa using setIfStr_key h

/-- Witness for C10 at the mount-time view state and a concrete date. -/
theorem contacts_request_limit_500_witness :
    (useContactsParams initialViewState ⟨2026, 10, 11⟩).limit = some 500 ∧
    (useContactsParams initialViewState ⟨2026, 10, 11⟩).page = none ∧
    ("limit", "500") ∈
      getAllQueryParams (useContactsParams initialViewState ⟨2026, 10, 11⟩) ∧
    ("page", "1") ∉
      getAllQueryParams (useContactsParams initialViewState ⟨2026, 10, 11⟩) := by
  obtain ⟨h1, h2, h3, h4⟩ :=
    contacts_request_limit_500 initialViewState ⟨2026, 10, 11⟩
  exact ⟨h1, h2, h3, h4 "1"⟩

end HncContacts
